import Mathlib

/-!
Verification of the adaptive quiz-progression controller in `script.js`.

The JavaScript source is shallowly embedded:
* `Question`, `Player`, `Quiz` classes become structures;
* JavaScript numbers used in the difficulty computation are modelled by
  exact rationals `ℚ` (for every ratio `correct/answered` reachable with
  at most the batch size of questions, IEEE-754 double comparison against
  the literals `0.7` and `0.4` agrees with rational comparison against
  `7/10` and `2/5`, because `7/10` rounds to the same double as the
  literal `0.7`);
* `Array.prototype.sort` applied to the source's comparator is modelled
  as insertion sort; the comparator's `Math.random() - 0.5` tie-break is
  an arbitrary function `tie : Question → Question → Int`, so every
  theorem quantifies over all possible tie outcomes;
* the generator `quizFlowGenerator` is embedded as an explicit state
  `GenState` (its local variables `qIndex`, `correctCount` and a `done`
  flag) together with a resume function `genResume` that runs the loop
  body from one `yield` to the next;
* DOM writes become `Event`s accumulated in the state: showing a question
  is `questionReady`, the feedback block is `answerScored`, and the final
  score screen together with `recordQuizAttempt` is `quizComplete`.
-/

namespace QuizSpec

/-- One trivia question (class `Question` in the source).  The difficulty
tag is kept as a raw string, exactly as delivered by the API and compared
by `===` in the source. -/
structure Question where
  questionText : String
  answerChoices : List String
  correctAns : String
  difficultyLevel : String
deriving DecidableEq, Repr

/-- Placeholder for a JavaScript out-of-bounds array read (`undefined`).
The claims only exercise in-bounds reads. -/
def defaultQuestion : Question := ⟨"", [], "", ""⟩

/-- `Question.validateAnswer`: exact string equality with the correct answer. -/
def Question.validateAnswer (q : Question) (userSelectedAnswer : String) : Bool :=
  userSelectedAnswer == q.correctAns

/-- One recorded attempt (the object pushed by `Player.recordQuizAttempt`).
The wall-clock `timestamp` string is environment-dependent and omitted. -/
structure AttemptResult where
  score : Nat
  total : Nat
  percentage : Int
deriving DecidableEq, Repr

/-- `Math.round` for the non-negative values arising here: round half
toward positive infinity, i.e. `⌊x + 1/2⌋`. -/
def jsRound (q : ℚ) : Int := (q + 1/2).floor

/-- Class `Player` in the source. -/
structure Player where
  username : String
  allScores : List AttemptResult
  recentScore : Nat
deriving DecidableEq, Repr

/-- `Player.recordQuizAttempt`: push `{score, total, percentage}` with
`percentage = Math.round(score/total * 100)`. -/
def Player.recordQuizAttempt (p : Player) (pointsEarned totalPoints : Nat) : Player :=
  { p with allScores := p.allScores ++
      [⟨pointsEarned, totalPoints,
        jsRound ((pointsEarned : ℚ) / (totalPoints : ℚ) * 100)⟩] }

/-- `Player.clearCurrentScore`. -/
def Player.clearCurrentScore (p : Player) : Player :=
  { p with recentScore := 0 }

/-- `calculateDificultyLevel` (sic): map a performance ratio to a
difficulty string with strict thresholds. -/
def calculateDificultyLevel (performanceScore : ℚ) : String :=
  if performanceScore > 7/10 then "hard"
  else if performanceScore > 2/5 then "medium"
  else "easy"

/-- Does a question's difficulty tag equal the target (the `===`
comparisons inside the sort comparator)? -/
def matchesTarget (target : String) (q : Question) : Bool :=
  q.difficultyLevel == target

/-- The comparator passed to `remainingQs.sort` in `quizFlowGenerator`:
`-1` when only `q1` matches the target difficulty, `1` when only `q2`
does, otherwise `Math.random() - 0.5`, modelled by the arbitrary
function `tie`. -/
def jsCompare (target : String) (tie : Question → Question → Int)
    (q1 q2 : Question) : Int :=
  if matchesTarget target q1 && !(matchesTarget target q2) then -1
  else if matchesTarget target q2 && !(matchesTarget target q1) then 1
  else tie q1 q2

/-- Strict "comes before" relation induced by the comparator. -/
def jsLt (target : String) (tie : Question → Question → Int)
    (q1 q2 : Question) : Prop :=
  jsCompare target tie q1 q2 < 0

instance (target : String) (tie : Question → Question → Int) :
    DecidableRel (jsLt target tie) :=
  fun q1 q2 => Int.decLt (jsCompare target tie q1 q2) 0

/-- The reordering policy: `Array.prototype.sort` with the comparator
above, modelled as insertion sort over an arbitrary tie function
(ECMAScript leaves the order implementation-defined for an inconsistent
comparator; the cross-partition comparisons are consistent). -/
def reorder (target : String) (tie : Question → Question → Int)
    (l : List Question) : List Question :=
  List.insertionSort (jsLt target tie) l

/-- A list is partitioned when every element matching `p` comes before
every element not matching `p`. -/
def partitionedBy (p : Question → Bool) : List Question → Bool
  | [] => true
  | x :: xs => if p x then partitionedBy p xs else xs.all fun y => !p y

/-- Lifecycle events.  `questionReady` is the rendering of a question by
`displayCurrentQuestion`, `answerScored` the feedback block written by
`selectAnswer`, `quizComplete` the final score screen of `finishQuiz`. -/
inductive Event where
  | questionReady (q : Question)
  | answerScored (wasCorrect : Bool) (correctAns : String)
  | quizComplete (score total : Nat)
deriving DecidableEq, Repr

/-- The suspended state of `quizFlowGenerator` between two `yield`s: its
local variables `qIndex` and `correctCount`, and whether the generator
has returned. -/
structure GenState where
  qIndex : Nat
  correctCount : Nat
  done : Bool
deriving DecidableEq, Repr

/-- The mutable state of class `Quiz`, together with the generator state
and the emitted events. -/
structure Quiz where
  playerObj : Player
  allQuestions : List Question
  currentQIndex : Nat
  totalScore : Nat
  quizRunning : Bool
  gen : GenState
  events : List Event
deriving DecidableEq, Repr

/-- A `Quiz` as constructed before `initializeQuiz` runs: questions
loaded, nothing started yet. -/
def mkQuiz (player : Player) (qs : List Question) : Quiz :=
  { playerObj := player, allQuestions := qs, currentQIndex := 0,
    totalScore := 0, quizRunning := false, gen := ⟨0, 0, true⟩, events := [] }

/-- `Quiz.finishQuiz`: stop the quiz, record the attempt via
`recordQuizAttempt` (called through `apply` in the source) and show the
final score (the `quizComplete` event). -/
def finishQuiz (st : Quiz) : Quiz :=
  { st with
    quizRunning := false,
    playerObj := st.playerObj.recordQuizAttempt st.totalScore st.allQuestions.length,
    events := st.events ++ [Event.quizComplete st.totalScore st.allQuestions.length] }

/-- `Quiz.displayCurrentQuestion`: render the current question, or end
the quiz when the index has run past the list. -/
def displayCurrentQuestion (st : Quiz) : Quiz :=
  if st.currentQIndex < st.allQuestions.length then
    { st with events := st.events ++
        [Event.questionReady (st.allQuestions.getD st.currentQIndex defaultQuestion)] }
  else finishQuiz st

/-- `Quiz.moveToNextQ`: advance the index and render. -/
def moveToNextQ (st : Quiz) : Quiz :=
  displayCurrentQuestion { st with currentQIndex := st.currentQIndex + 1 }

/-- The tail-reordering step of `quizFlowGenerator`: keep the first `pos`
questions, sort the rest with the comparator. -/
def reorderTail (tie : Question → Question → Int) (target : String)
    (qs : List Question) (pos : Nat) : List Question :=
  qs.take pos ++ reorder target tie (qs.drop pos)

/-- Resuming `quizFlowGenerator` at `const playerAnswer = yield q` with
the submitted answer: score it into `correctCount`, advance `qIndex`,
and when questions remain compute the performance ratio, the target
difficulty, and reorder the remaining questions; the generator then
yields again (`done = false`) or returns (`done = true`).  Resuming an
already-finished generator does nothing (`.next()` on a done generator).
Returns the new generator state, the (possibly reordered) question list,
and the `done` flag of the `.next()` result. -/
def genResume (tie : Question → Question → Int) (gen : GenState)
    (qs : List Question) (answer : String) : GenState × List Question × Bool :=
  if gen.done then (gen, qs, true)
  else
    let q := qs.getD gen.qIndex defaultQuestion
    let correctCount :=
      if q.validateAnswer answer then gen.correctCount + 1 else gen.correctCount
    let qIndex := gen.qIndex + 1
    if qIndex < qs.length ∧ 0 < qIndex then
      let currentPerf : ℚ := (correctCount : ℚ) / (qIndex : ℚ)
      let targetDiff := calculateDificultyLevel currentPerf
      (⟨qIndex, correctCount, false⟩, reorderTail tie targetDiff qs qIndex, false)
    else
      (⟨qIndex, correctCount, if qIndex < qs.length then false else true⟩, qs,
        if qIndex < qs.length then false else true)

/-- `Quiz.selectAnswer`: no-op unless running; otherwise score the
current question, emit feedback, resume the generator with the answer,
and finish the quiz when the generator is done (the source defers
`finishQuiz` behind a `setTimeout`, modelled synchronously). -/
def selectAnswer (tie : Question → Question → Int) (st : Quiz)
    (chosenAnswer : String) : Quiz :=
  if st.quizRunning = false then st
  else
    let currentQ := st.allQuestions.getD st.currentQIndex defaultQuestion
    let answerIsRight := currentQ.validateAnswer chosenAnswer
    let st1 : Quiz :=
      { st with
        totalScore := if answerIsRight then st.totalScore + 1 else st.totalScore,
        playerObj :=
          if answerIsRight then
            { st.playerObj with recentScore := st.playerObj.recentScore + 1 }
          else st.playerObj,
        events := st.events ++ [Event.answerScored answerIsRight currentQ.correctAns] }
    let res := genResume tie st1.gen st1.allQuestions chosenAnswer
    let st2 : Quiz := { st1 with gen := res.1, allQuestions := res.2.1 }
    if res.2.2 then finishQuiz st2 else st2

/-- `Quiz.initializeQuiz`: reset the session, start a freshly created
generator with one `.next()` call (every caller in the source creates
`qGen` immediately before calling `initializeQuiz`), and display the
first question when the generator yielded one. -/
def initializeQuiz (st : Quiz) : Quiz :=
  let st1 : Quiz :=
    { st with
      quizRunning := true, currentQIndex := 0, totalScore := 0,
      playerObj := st.playerObj.clearCurrentScore, gen := ⟨0, 0, false⟩ }
  if st1.allQuestions.length = 0 then { st1 with gen := ⟨0, 0, true⟩ }
  else displayCurrentQuestion st1

/-- One round of the UI-driven loop: submit an answer, then (while the
quiz is still running) the `next-btn` click that calls `moveToNextQ`. -/
def quizStep (tie : Question → Question → Int) (st : Quiz) (answer : String) : Quiz :=
  let st1 := selectAnswer tie st answer
  if st1.quizRunning then moveToNextQ st1 else st1

/-- Run a whole answer sequence through `quizStep`. -/
def runQuiz (tie : Question → Question → Int) (st : Quiz)
    (answers : List String) : Quiz :=
  answers.foldl (quizStep tie) st

/-- Is an event a correctly-scored answer? -/
def isCorrectScored : Event → Bool
  | .answerScored true _ => true
  | _ => false

/-- The `total` carried by a `quizComplete` event, if any. -/
def completeTotal : Event → Option Nat
  | .quizComplete _ t => some t
  | _ => none

/-- Number of `answerScored` events with `wasCorrect = true`. -/
def correctScored (evs : List Event) : Nat := evs.countP isCorrectScored

/-- Totals of all `quizComplete` events, in emission order. -/
def completeTotals (evs : List Event) : List Nat := evs.filterMap completeTotal

/-- Invariant of the driver loop after `k` answered questions on a batch
of `n` questions: score bookkeeping agrees everywhere, and either the
quiz is still running with both indices at `k`, or it has completed and
exactly one `quizComplete` with total `n` was emitted. -/
def Inv (n k : Nat) (st : Quiz) : Prop :=
  st.allQuestions.length = n ∧
  correctScored st.events = st.totalScore ∧
  st.gen.correctCount = st.totalScore ∧
  (if k < n then
    st.quizRunning = true ∧ st.gen.done = false ∧ st.currentQIndex = k ∧
      st.gen.qIndex = k ∧ completeTotals st.events = []
  else
    st.quizRunning = false ∧ st.gen.done = true ∧ completeTotals st.events = [n])

def tieNeg : Question → Question → Int := fun _ _ => -1

def sampleQ1 : Question := ⟨"Q1", ["a", "b"], "a", "easy"⟩

def sampleQ2 : Question := ⟨"Q2", ["c", "d"], "c", "hard"⟩

def samplePlayer : Player := ⟨"Player", [], 0⟩

lemma partitionedBy_nil (p : Question → Bool) : partitionedBy p [] = true := rfl

lemma partitionedBy_cons_pos {p : Question → Bool} {x : Question} {xs : List Question}
    (hx : p x = true) : partitionedBy p (x :: xs) = partitionedBy p xs := by
  simp [partitionedBy, hx]

lemma partitionedBy_cons_neg {p : Question → Bool} {x : Question} {xs : List Question}
    (hx : p x = false) : partitionedBy p (x :: xs) = xs.all fun y => !p y := by
  simp [partitionedBy, hx]

lemma jsLt_of_match_nonmatch {target : String} {tie : Question → Question → Int}
    {x y : Question} (hx : matchesTarget target x = true)
    (hy : matchesTarget target y = false) : jsLt target tie x y := by
  simp [jsLt, jsCompare, hx, hy]

lemma not_jsLt_of_nonmatch_match {target : String} {tie : Question → Question → Int}
    {x y : Question} (hx : matchesTarget target x = false)
    (hy : matchesTarget target y = true) : ¬ jsLt target tie x y := by
  simp [jsLt, jsCompare, hx, hy]

lemma all_not_orderedInsert {target : String} {tie : Question → Question → Int}
    {x : Question} {l : List Question}
    (hl : l.all (fun y => !matchesTarget target y) = true)
    (hx : matchesTarget target x = false) :
    (l.orderedInsert (jsLt target tie) x).all
      (fun y => !matchesTarget target y) = true := by
  rw [List.all_eq_true] at hl ⊢
  intro y hy
  rcases (List.mem_orderedInsert _).mp hy with h | h
  · simp [h, hx]
  · exact hl y h

lemma partitionedBy_orderedInsert {target : String} {tie : Question → Question → Int}
    (x : Question) (l : List Question)
    (h : partitionedBy (matchesTarget target) l = true) :
    partitionedBy (matchesTarget target)
      (l.orderedInsert (jsLt target tie) x) = true := by
  induction l with
  | nil =>
    simp only [List.orderedInsert_nil]
    cases hx : matchesTarget target x with
    | true => rw [partitionedBy_cons_pos hx]; rfl
    | false => rw [partitionedBy_cons_neg hx]; rfl
  | cons y ys ih =>
    by_cases hxy : jsLt target tie x y
    · simp only [List.orderedInsert, if_pos hxy]
      cases hx : matchesTarget target x with
      | true => rw [partitionedBy_cons_pos hx]; exact h
      | false =>
        have hy : matchesTarget target y = false := by
          cases hyv : matchesTarget target y with
          | true => exact absurd hxy (not_jsLt_of_nonmatch_match hx hyv)
          | false => rfl
        have hall : ys.all (fun z => !matchesTarget target z) = true := by
          rw [partitionedBy_cons_neg hy] at h; exact h
        rw [partitionedBy_cons_neg hx, List.all_cons, hy]
        simpa using hall
    · simp only [List.orderedInsert, if_neg hxy]
      cases hy : matchesTarget target y with
      | true =>
        have hys : partitionedBy (matchesTarget target) ys = true := by
          rw [partitionedBy_cons_pos hy] at h; exact h
        rw [partitionedBy_cons_pos hy]
        exact ih hys
      | false =>
        have hx : matchesTarget target x = false := by
          cases hxv : matchesTarget target x with
          | true => exact absurd (jsLt_of_match_nonmatch hxv hy) hxy
          | false => rfl
        have hall : ys.all (fun z => !matchesTarget target z) = true := by
          rw [partitionedBy_cons_neg hy] at h; exact h
        rw [partitionedBy_cons_neg hy]
        exact all_not_orderedInsert hall hx

lemma partitionedBy_reorder (target : String) (tie : Question → Question → Int)
    (l : List Question) :
    partitionedBy (matchesTarget target) (reorder target tie l) = true := by
  induction l with
  | nil => rfl
  | cons x xs ih => exact partitionedBy_orderedInsert x _ ih

lemma partitionedBy_split {p : Question → Bool} :
    ∀ {l : List Question}, partitionedBy p l = true →
      ∃ l1 l2, l = l1 ++ l2 ∧ (∀ q ∈ l1, p q = true) ∧ (∀ q ∈ l2, p q = false)
  | [], _ => ⟨[], [], rfl, by simp, by simp⟩
  | x :: xs, h => by
    cases hx : p x with
    | true =>
      have hxs : partitionedBy p xs = true := by
        rw [partitionedBy_cons_pos hx] at h; exact h
      obtain ⟨l1, l2, heq, h1, h2⟩ := partitionedBy_split hxs
      refine ⟨x :: l1, l2, by simp [heq], ?_, h2⟩
      intro q hq
      rcases List.mem_cons.mp hq with rfl | hq
      · exact hx
      · exact h1 q hq
    | false =>
      have hall : xs.all (fun y => !p y) = true := by
        rw [partitionedBy_cons_neg hx] at h; exact h
      rw [List.all_eq_true] at hall
      refine ⟨[], x :: xs, by simp, by simp, ?_⟩
      intro q hq
      rcases List.mem_cons.mp hq with rfl | hq
      · exact hx
      · simpa using hall q hq

lemma length_reorder (target : String) (tie : Question → Question → Int)
    (l : List Question) : (reorder target tie l).length = l.length :=
  List.length_insertionSort _ _

lemma length_reorderTail (tie : Question → Question → Int) (target : String)
    (qs : List Question) (pos : Nat) :
    (reorderTail tie target qs pos).length = qs.length := by
  simp only [reorderTail, List.length_append, List.length_take, length_reorder,
    List.length_drop]
  omega

lemma correctScored_append (a b : List Event) :
    correctScored (a ++ b) = correctScored a + correctScored b :=
  List.countP_append _ _ _

lemma completeTotals_append (a b : List Event) :
    completeTotals (a ++ b) = completeTotals a ++ completeTotals b :=
  List.filterMap_append _ _ _

lemma correctScored_answerScored (w : Bool) (c : String) :
    correctScored [Event.answerScored w c] = if w then 1 else 0 := by
  cases w <;> rfl

lemma correctScored_questionReady (q : Question) :
    correctScored [Event.questionReady q] = 0 := rfl

lemma correctScored_quizComplete (s t : Nat) :
    correctScored [Event.quizComplete s t] = 0 := rfl

lemma completeTotals_answerScored (w : Bool) (c : String) :
    completeTotals [Event.answerScored w c] = [] := rfl

lemma completeTotals_questionReady (q : Question) :
    completeTotals [Event.questionReady q] = [] := rfl

lemma completeTotals_quizComplete (s t : Nat) :
    completeTotals [Event.quizComplete s t] = [t] := rfl

lemma correctScored_nil : correctScored [] = 0 := rfl

lemma completeTotals_nil : completeTotals [] = [] := rfl

lemma correctScored_cons_answerScored (w : Bool) (c : String) (evs : List Event) :
    correctScored (Event.answerScored w c :: evs) =
      correctScored evs + (if w then 1 else 0) := by
  cases w <;> simp [correctScored, List.countP_cons, isCorrectScored]

lemma correctScored_cons_questionReady (q : Question) (evs : List Event) :
    correctScored (Event.questionReady q :: evs) = correctScored evs := by
  simp [correctScored, List.countP_cons, isCorrectScored]

lemma correctScored_cons_quizComplete (s t : Nat) (evs : List Event) :
    correctScored (Event.quizComplete s t :: evs) = correctScored evs := by
  simp [correctScored, List.countP_cons, isCorrectScored]

lemma completeTotals_cons_answerScored (w : Bool) (c : String) (evs : List Event) :
    completeTotals (Event.answerScored w c :: evs) = completeTotals evs := by
  simp [completeTotals, List.filterMap_cons, completeTotal]

lemma completeTotals_cons_questionReady (q : Question) (evs : List Event) :
    completeTotals (Event.questionReady q :: evs) = completeTotals evs := by
  simp [completeTotals, List.filterMap_cons, completeTotal]

lemma completeTotals_cons_quizComplete (s t : Nat) (evs : List Event) :
    completeTotals (Event.quizComplete s t :: evs) = t :: completeTotals evs := by
  simp [completeTotals, List.filterMap_cons, completeTotal]

lemma selectAnswer_of_not_running (tie : Question → Question → Int) (st : Quiz)
    (a : String) (h : st.quizRunning = false) : selectAnswer tie st a = st := by
  simp [selectAnswer, h]

lemma inv_init (player : Player) (qs : List Question) (h : 0 < qs.length) :
    Inv qs.length 0 (initializeQuiz (mkQuiz player qs)) := by
  have hne : ¬ qs.length = 0 := Nat.pos_iff_ne_zero.mp h
  refine ⟨?_, ?_, ?_, ?_⟩ <;>
    simp [initializeQuiz, mkQuiz, displayCurrentQuestion, hne, h,
      correctScored, completeTotals, isCorrectScored, completeTotal]

lemma inv_step (tie : Question → Question → Int) (n k : Nat) (st : Quiz)
    (a : String) (h : Inv n k st) : Inv n (k + 1) (quizStep tie st a) := by
  obtain ⟨hlen, hcs, hgc, hbr⟩ := h
  by_cases hk : k < n
  · rw [if_pos hk] at hbr
    obtain ⟨hrun, hdone, hcqi, hqi, hct⟩ := hbr
    by_cases hk1 : k + 1 < n
    · -- not the final question: the generator reorders and yields again
      have hcond : k + 1 < st.allQuestions.length ∧ 0 < k + 1 := ⟨hlen ▸ hk1, Nat.succ_pos k⟩
      cases hv : (st.allQuestions.getD k defaultQuestion).validateAnswer a with
      | true =>
        simp only [quizStep, selectAnswer, hrun, genResume, hdone, hcqi, hqi, hv,
          moveToNextQ, displayCurrentQuestion]
        simp [hcond, Inv, hk1, length_reorderTail, hlen, correctScored_append,
          completeTotals_append, correctScored_answerScored,
          correctScored_questionReady, completeTotals_answerScored,
          completeTotals_questionReady, hct, hcs, hgc, correctScored_nil,
          completeTotals_nil, correctScored_cons_answerScored,
          correctScored_cons_questionReady, completeTotals_cons_answerScored,
          completeTotals_cons_questionReady]
      | false =>
        simp only [quizStep, selectAnswer, hrun, genResume, hdone, hcqi, hqi, hv,
          moveToNextQ, displayCurrentQuestion]
        simp [hcond, Inv, hk1, length_reorderTail, hlen, correctScored_append,
          completeTotals_append, correctScored_answerScored,
          correctScored_questionReady, completeTotals_answerScored,
          completeTotals_questionReady, hct, hcs, hgc, correctScored_nil,
          completeTotals_nil, correctScored_cons_answerScored,
          correctScored_cons_questionReady, completeTotals_cons_answerScored,
          completeTotals_cons_questionReady]
    · -- the final question: the generator returns and the quiz finishes
      have hge : ¬ (k + 1 < st.allQuestions.length ∧ 0 < k + 1) := by
        rw [hlen]; omega
      have hge2 : ¬ (k + 1 < st.allQuestions.length) := by rw [hlen]; omega
      have hkn : ¬ (k + 1 < n) := hk1
      cases hv : (st.allQuestions.getD k defaultQuestion).validateAnswer a with
      | true =>
        simp only [quizStep, selectAnswer, hrun, genResume, hdone, hcqi, hqi, hv,
          finishQuiz]
        simp [hge, hge2, Inv, hkn, hlen, correctScored_append,
          completeTotals_append, correctScored_answerScored,
          correctScored_quizComplete, completeTotals_answerScored,
          completeTotals_quizComplete, hct, hcs, hgc, correctScored_nil,
          completeTotals_nil, correctScored_cons_answerScored,
          correctScored_cons_quizComplete, completeTotals_cons_answerScored,
          completeTotals_cons_quizComplete]
      | false =>
        simp only [quizStep, selectAnswer, hrun, genResume, hdone, hcqi, hqi, hv,
          finishQuiz]
        simp [hge, hge2, Inv, hkn, hlen, correctScored_append,
          completeTotals_append, correctScored_answerScored,
          correctScored_quizComplete, completeTotals_answerScored,
          completeTotals_quizComplete, hct, hcs, hgc, correctScored_nil,
          completeTotals_nil, correctScored_cons_answerScored,
          correctScored_cons_quizComplete, completeTotals_cons_answerScored,
          completeTotals_cons_quizComplete]
  · -- quiz already complete: the whole step is a no-op
    rw [if_neg hk] at hbr
    obtain ⟨hrun, hdone, hct⟩ := hbr
    have hstep : quizStep tie st a = st := by
      simp [quizStep, selectAnswer_of_not_running tie st a hrun, hrun]
    rw [hstep, Inv, if_neg (by omega)]
    exact ⟨hlen, hcs, hgc, hrun, hdone, hct⟩

lemma inv_run (tie : Question → Question → Int) (n : Nat) :
    ∀ (answers : List String) (k : Nat) (st : Quiz), Inv n k st →
      Inv n (k + answers.length) (runQuiz tie st answers)
  | [], k, st, h => by simpa [runQuiz] using h
  | a :: as, k, st, h => by
    have h2 := inv_run tie n as (k + 1) (quizStep tie st a) (inv_step tie n k st a h)
    have hk : k + (a :: as).length = k + 1 + as.length := by
      simp [List.length_cons]; omega
    rw [hk]
    simpa [runQuiz] using h2

lemma rat_floor_eq (r : ℚ) (n : ℤ) (h1 : (n : ℚ) ≤ r) (h2 : r < (n : ℚ) + 1) :
    Rat.floor r = n := by
  have hle : n ≤ Rat.floor r := Rat.le_floor.mpr h1
  have hlt : ¬ (n + 1 ≤ Rat.floor r) := by
    intro hc
    have := Rat.le_floor.mp hc
    push_cast at this
    linarith
  omega

lemma take_reorderTail (tie : Question → Question → Int) (target : String)
    (qs : List Question) (pos : Nat) :
    (reorderTail tie target qs pos).take pos = qs.take pos := by
  unfold reorderTail
  rcases Nat.le_total pos qs.length with h | h
  · have hl : (qs.take pos).length = pos := by simp [List.length_take]; omega
    rw [List.take_append_eq_append_take, hl, Nat.sub_self, List.take_zero,
      List.append_nil, List.take_take, Nat.min_self]
  · have hd : qs.drop pos = [] := List.drop_eq_nil_of_le h
    rw [hd]
    have : reorder target tie [] = [] := rfl
    rw [this, List.append_nil, List.take_take, Nat.min_self]

/-- C1: for every non-empty batch, every tie-break behaviour of the sort
and every answer sequence of the batch's length, starting the quiz and
submitting one answer per question (each non-final answer followed by the
`next` click) leaves the controller stopped (`quizRunning = false`) and
the event log holds exactly one `quizComplete`, whose total is the batch
length. -/
theorem quiz_run_completes (tie : Question → Question → Int) (player : Player)
    (qs : List Question) (answers : List String)
    (hne : 0 < qs.length) (hlen : answers.length = qs.length) :
    (runQuiz tie (initializeQuiz (mkQuiz player qs)) answers).quizRunning = false ∧
    completeTotals (runQuiz tie (initializeQuiz (mkQuiz player qs)) answers).events =
      [qs.length] := by
  have h := inv_run tie qs.length answers 0 _ (inv_init player qs hne)
  rw [hlen] at h
  obtain ⟨-, -, -, hbr⟩ := h
  rw [if_neg (by omega)] at hbr
  exact ⟨hbr.1, hbr.2.2⟩

theorem quiz_run_completes_witness :
    0 < ([sampleQ1, sampleQ2] : List Question).length ∧
    (["a", "d"] : List String).length = ([sampleQ1, sampleQ2] : List Question).length ∧
    ((runQuiz tieNeg (initializeQuiz (mkQuiz samplePlayer [sampleQ1, sampleQ2]))
        ["a", "d"]).quizRunning = false ∧
      completeTotals (runQuiz tieNeg (initializeQuiz (mkQuiz samplePlayer
        [sampleQ1, sampleQ2])) ["a", "d"]).events =
          [([sampleQ1, sampleQ2] : List Question).length]) :=
  ⟨by decide, by decide,
    quiz_run_completes tieNeg samplePlayer [sampleQ1, sampleQ2] ["a", "d"]
      (by decide) (by decide)⟩

/-- C2: the reordering policy puts every question whose difficulty equals
the target before every question whose difficulty differs from it, for
every tie-break behaviour. -/
theorem reorder_target_first (target : String) (tie : Question → Question → Int)
    (l : List Question) :
    ∃ l1 l2, reorder target tie l = l1 ++ l2 ∧
      (∀ q ∈ l1, matchesTarget target q = true) ∧
      (∀ q ∈ l2, matchesTarget target q = false) :=
  partitionedBy_split (partitionedBy_reorder target tie l)

/-- C3: the reordering policy returns a permutation of its input: same
elements, same multiplicities, nothing added or removed. -/
theorem reorder_perm (target : String) (tie : Question → Question → Int)
    (l : List Question) : List.Perm (reorder target tie l) l :=
  List.perm_insertionSort (jsLt target tie) l

/-- C4: the difficulty-target function maps ratios above `7/10` to hard,
ratios in `(2/5, 7/10]` to medium and ratios at or below `2/5` to easy;
the thresholds are strict, so `7/10` itself gives medium, `2/5` gives
easy, and `0` gives easy. -/
theorem calculateDificultyLevel_thresholds (r : ℚ) :
    (7/10 < r → calculateDificultyLevel r = "hard") ∧
    (2/5 < r → r ≤ 7/10 → calculateDificultyLevel r = "medium") ∧
    (r ≤ 2/5 → calculateDificultyLevel r = "easy") ∧
    calculateDificultyLevel (7/10) = "medium" ∧
    calculateDificultyLevel (2/5) = "easy" ∧
    calculateDificultyLevel 0 = "easy" := by
  refine ⟨?_, ?_, ?_, ?_, ?_, ?_⟩
  · intro h
    rw [calculateDificultyLevel, if_pos h]
  · intro h1 h2
    rw [calculateDificultyLevel, if_neg (not_lt.mpr h2), if_pos h1]
  · intro h
    have h7 : ¬ (7/10 : ℚ) < r := not_lt.mpr (h.trans (by norm_num))
    rw [calculateDificultyLevel, if_neg h7, if_neg (not_lt.mpr h)]
  · rw [calculateDificultyLevel, if_neg (lt_irrefl _), if_pos (by norm_num)]
  · rw [calculateDificultyLevel, if_neg (by norm_num), if_neg (lt_irrefl _)]
  · rw [calculateDificultyLevel, if_neg (by norm_num), if_neg (by norm_num)]

lemma seven_tenths_lt_71 : (7/10 : ℚ) < 71/100 := by norm_num

lemma two_fifths_lt_half : (2/5 : ℚ) < 1/2 := by norm_num

lemma half_le_seven_tenths : (1/2 : ℚ) ≤ 7/10 := by norm_num

lemma two_fifths_le_two_fifths : (2/5 : ℚ) ≤ 2/5 := le_refl _

theorem calculateDificultyLevel_thresholds_witness :
    ((7/10 : ℚ) < 71/100 ∧ calculateDificultyLevel (71/100) = "hard") ∧
    ((2/5 : ℚ) < 1/2 ∧ (1/2 : ℚ) ≤ 7/10 ∧ calculateDificultyLevel (1/2) = "medium") ∧
    ((2/5 : ℚ) ≤ 2/5 ∧ calculateDificultyLevel (2/5) = "easy") :=
  ⟨⟨seven_tenths_lt_71,
      (calculateDificultyLevel_thresholds (71/100)).1 seven_tenths_lt_71⟩,
    ⟨two_fifths_lt_half, half_le_seven_tenths,
      (calculateDificultyLevel_thresholds (1/2)).2.1 two_fifths_lt_half
        half_le_seven_tenths⟩,
    ⟨two_fifths_le_two_fifths,
      (calculateDificultyLevel_thresholds (2/5)).2.2.1 two_fifths_le_two_fifths⟩⟩

/-- C5: for every batch, tie-break behaviour and full answer sequence,
the score at completion equals the number of submitted answers scored
correct, i.e. the number of `answerScored` events whose validation
outcome (`validateAnswer` of the then-current question) was true. -/
theorem score_counts_validated (tie : Question → Question → Int) (player : Player)
    (qs : List Question) (answers : List String)
    (hne : 0 < qs.length) (hlen : answers.length = qs.length) :
    (runQuiz tie (initializeQuiz (mkQuiz player qs)) answers).totalScore =
      correctScored (runQuiz tie (initializeQuiz (mkQuiz player qs)) answers).events := by
  have h := inv_run tie qs.length answers 0 _ (inv_init player qs hne)
  exact h.2.1.symm

theorem score_counts_validated_witness :
    0 < ([sampleQ1, sampleQ2] : List Question).length ∧
    (["a", "d"] : List String).length = ([sampleQ1, sampleQ2] : List Question).length ∧
    (runQuiz tieNeg (initializeQuiz (mkQuiz samplePlayer [sampleQ1, sampleQ2]))
        ["a", "d"]).totalScore =
      correctScored (runQuiz tieNeg (initializeQuiz (mkQuiz samplePlayer
        [sampleQ1, sampleQ2])) ["a", "d"]).events :=
  ⟨by decide, by decide,
    score_counts_validated tieNeg samplePlayer [sampleQ1, sampleQ2] ["a", "d"]
      (by decide) (by decide)⟩

/-- C6 counterexample: starting with an empty batch does not fail — the
source's `initializeQuiz` has no emptiness check and throws nothing; it
marks the session running and emits no event (and no error) at all. -/
theorem initializeQuiz_empty_counterexample :
    (initializeQuiz (mkQuiz ⟨"Player", [], 0⟩ [])).quizRunning = true ∧
    (initializeQuiz (mkQuiz ⟨"Player", [], 0⟩ [])).events = [] := by
  exact ⟨rfl, rfl⟩

/-- C6 (amended): calling start with a batch of zero questions reports no
error: `initializeQuiz` sets `running = true`, the generator finishes
immediately, and no question is displayed and no event is emitted. -/
theorem initializeQuiz_empty_silent (player : Player) :
    (initializeQuiz (mkQuiz player [])).quizRunning = true ∧
    (initializeQuiz (mkQuiz player [])).gen.done = true ∧
    (initializeQuiz (mkQuiz player [])).events = [] :=
  ⟨rfl, rfl, rfl⟩

/-- C7: when `quizRunning = false`, `selectAnswer` is a deterministic
no-op: score, position, events (and in fact the whole state) are
unchanged. -/
theorem selectAnswer_noop_not_running (tie : Question → Question → Int)
    (st : Quiz) (answer : String) (h : st.quizRunning = false) :
    (selectAnswer tie st answer).totalScore = st.totalScore ∧
    (selectAnswer tie st answer).currentQIndex = st.currentQIndex ∧
    (selectAnswer tie st answer).events = st.events := by
  rw [selectAnswer_of_not_running tie st answer h]
  exact ⟨rfl, rfl, rfl⟩

theorem selectAnswer_noop_not_running_witness :
    (mkQuiz samplePlayer [sampleQ1]).quizRunning = false ∧
    ((selectAnswer tieNeg (mkQuiz samplePlayer [sampleQ1]) "a").totalScore =
        (mkQuiz samplePlayer [sampleQ1]).totalScore ∧
      (selectAnswer tieNeg (mkQuiz samplePlayer [sampleQ1]) "a").currentQIndex =
        (mkQuiz samplePlayer [sampleQ1]).currentQIndex ∧
      (selectAnswer tieNeg (mkQuiz samplePlayer [sampleQ1]) "a").events =
        (mkQuiz samplePlayer [sampleQ1]).events) :=
  ⟨rfl, selectAnswer_noop_not_running tieNeg (mkQuiz samplePlayer [sampleQ1]) "a" rfl⟩

/-- C8: one generator resume step never touches the already-answered head
segment and never inserts or removes questions: the updated list has the
same length, and its first `qIndex + 1` entries (everything at or before
the just-answered position) are identical. -/
theorem genResume_frame (tie : Question → Question → Int) (gen : GenState)
    (qs : List Question) (answer : String) :
    ((genResume tie gen qs answer).2.1).length = qs.length ∧
    ((genResume tie gen qs answer).2.1).take (gen.qIndex + 1) =
      qs.take (gen.qIndex + 1) := by
  rw [genResume]
  by_cases hd : gen.done
  · simp [hd]
  · simp only [hd, if_false, Bool.false_eq_true]
    by_cases hc : gen.qIndex + 1 < qs.length ∧ 0 < gen.qIndex + 1
    · simp only [hc, if_true, length_reorderTail, take_reorderTail, and_self]
    · have hlt : ¬ gen.qIndex + 1 < qs.length := fun hx => hc ⟨hx, Nat.succ_pos _⟩
      simp [hc, hlt]

/-- C9: `recordQuizAttempt` appends one entry whose percentage is
`Math.round(score/total*100)`; in particular `(7, 10)` records 70,
`(1, 3)` records 33 (rounded down) and `(2, 3)` records 67 (rounded
up). -/
theorem recordQuizAttempt_appends (p : Player) (s t : Nat) (ht : 0 < t) :
    (p.recordQuizAttempt s t).allScores =
      p.allScores ++ [⟨s, t, jsRound ((s : ℚ) / (t : ℚ) * 100)⟩] ∧
    jsRound ((7 : ℚ) / (10 : ℚ) * 100) = 70 ∧
    jsRound ((1 : ℚ) / (3 : ℚ) * 100) = 33 ∧
    jsRound ((2 : ℚ) / (3 : ℚ) * 100) = 67 := by
  refine ⟨rfl, ?_, ?_, ?_⟩
  · exact rat_floor_eq _ 70 (by norm_num) (by norm_num)
  · exact rat_floor_eq _ 33 (by norm_num) (by norm_num)
  · exact rat_floor_eq _ 67 (by norm_num) (by norm_num)

theorem recordQuizAttempt_appends_witness :
    0 < 10 ∧
    ((Player.recordQuizAttempt ⟨"Player", [], 0⟩ 7 10).allScores =
        [] ++ [⟨7, 10, jsRound (((7 : Nat) : ℚ) / ((10 : Nat) : ℚ) * 100)⟩] ∧
      jsRound ((7 : ℚ) / (10 : ℚ) * 100) = 70 ∧
      jsRound ((1 : ℚ) / (3 : ℚ) * 100) = 33 ∧
      jsRound ((2 : ℚ) / (3 : ℚ) * 100) = 67) :=
  ⟨by decide, recordQuizAttempt_appends ⟨"Player", [], 0⟩ 7 10 (by decide)⟩

/-- C10: the score is tracked twice — `totalScore` in `selectAnswer` and
`correctCount` inside the generator — and after every answered prefix of
any answer sequence the two counts coincide, because both validate the
same question against the same answer. -/
theorem totalScore_eq_generator_count (tie : Question → Question → Int)
    (player : Player) (qs : List Question) (answers : List String) (k : Nat)
    (hne : 0 < qs.length) :
    (runQuiz tie (initializeQuiz (mkQuiz player qs)) (answers.take k)).totalScore =
      (runQuiz tie (initializeQuiz (mkQuiz player qs)) (answers.take k)).gen.correctCount := by
  have h := inv_run tie qs.length (answers.take k) 0 _ (inv_init player qs hne)
  exact h.2.2.1.symm

theorem totalScore_eq_generator_count_witness :
    0 < ([sampleQ1, sampleQ2] : List Question).length ∧
    (runQuiz tieNeg (initializeQuiz (mkQuiz samplePlayer [sampleQ1, sampleQ2]))
        ((["a", "d"] : List String).take 1)).totalScore =
      (runQuiz tieNeg (initializeQuiz (mkQuiz samplePlayer [sampleQ1, sampleQ2]))
        ((["a", "d"] : List String).take 1)).gen.correctCount :=
  ⟨by decide,
    totalScore_eq_generator_count tieNeg samplePlayer [sampleQ1, sampleQ2]
      ["a", "d"] 1 (by decide)⟩

end QuizSpec
